import Mathlib

/-!
Verification development for the crl-updater repository.

Shallow embedding of the per-job CRL update pipeline:
* bytes are modelled as `Nat` (values of Go `byte`),
* a network/file stream is a list of read events: each `Read` call on the
  underlying reader yields one event's data together with the flag telling
  whether `io.EOF` was returned alongside it (Go readers may return data and
  EOF in the same call, or signal EOF on a later empty read),
* `LimitedStrictReader` mirrors `pkg/utils.LimitedStrictReader`,
* `downloadCRL`, `isCRL`, `CRLJob.Run` and `CRLJob.Prepare` mirror the code in
  the main package,
* the SHA-256 digest is idealised as the byte content itself (collision-free
  hash), so digest equality is content equality,
* filesystem and OS outcomes that the code only branches on (temp-file
  creation, chown/chmod, rename, opening/reading the destination) are modelled
  as boolean oracles in `RunEnv`.
-/

/-- One `Read` call's result from the underlying reader: the bytes delivered,
and whether `io.EOF` was returned together with them. -/
structure ReadEvent where
  data : List Nat
  eof : Bool
deriving DecidableEq, Repr

/-- All bytes carried by a list of read events. -/
def allData : List ReadEvent → List Nat
  | [] => []
  | e :: rest => e.data ++ allData rest

/-- A well-formed stream signals EOF only on its last event: every event
before the last has `eof = false`. -/
def wfEvents : List ReadEvent → Bool
  | [] => true
  | [_] => true
  | e :: rest => !e.eof && wfEvents rest

/-- The `X509CRLPEMHeader` constant from the main package. -/
def X509CRLPEMHeader : String := "-----BEGIN X509 CRL-----"

/-- The bytes of the PEM header (ASCII, so code points are byte values). -/
def pemHeaderBytes : List Nat := X509CRLPEMHeader.toList.map Char.toNat

/-- Function `isCRL` from the main package: the 24-byte head equals the PEM header, or
the first byte is 0x30 and the second is 0x82 or 0x83.  At its call site the
slice always has length 24; out-of-range indexing is modelled with `getD`. -/
def isCRL (b : List Nat) : Bool :=
  b == pemHeaderBytes ||
    (b.getD 0 0 == 0x30 && (b.getD 1 0 == 0x82 || b.getD 1 0 == 0x83))

/-- Structure `pkg/utils.LimitedStrictReader`: an underlying reader (its remaining read
events) plus the remaining byte budget `N : int64`. -/
structure LimitedStrictReader where
  events : List ReadEvent
  N : Int
deriving DecidableEq, Repr

/-- The result a `Read` call reports to its caller: data plus EOF flag, or the
"input stream too large" error. -/
inductive ReadRes where
  | data (bytes : List Nat) (eof : Bool)
  | tooLarge
deriving DecidableEq, Repr

/-- Method `LimitedStrictReader.Read` from `pkg/utils`:
if `N <= 0` return the "input stream too large" error; otherwise truncate the
buffer to `N`, read from the underlying reader, subtract the bytes read.
The underlying reader delivers the front event if it fits in the buffer
(with its EOF flag), else the buffer-sized front of it; an exhausted
underlying reader reports a clean EOF. -/
def LimitedStrictReader.Read (l : LimitedStrictReader) (plen : Nat) :
    ReadRes × LimitedStrictReader :=
  if l.N ≤ 0 then (ReadRes.tooLarge, l)
  else
    match l.events with
    | [] => (ReadRes.data [] true, l)
    | e :: rest =>
      if e.data.length ≤ min plen l.N.toNat then
        (ReadRes.data e.data e.eof, ⟨rest, l.N - e.data.length⟩)
      else
        (ReadRes.data (e.data.take (min plen l.N.toNat)) false,
          ⟨⟨e.data.drop (min plen l.N.toNat), e.eof⟩ :: rest,
            l.N - min plen l.N.toNat⟩)

/-- Model of `io.Copy` over a `LimitedStrictReader` source, with the 32 KiB buffer
`io.Copy` allocates, written with explicit fuel so it is structurally
recursive (every `Read` either errors, ends the stream, or strictly shrinks
`events.length + N.toNat`, so fuel `events.length + N.toNat + 1` suffices).
Returns the bytes written to the destination and whether the copy finished
without error. -/
def copyLoopF : Nat → LimitedStrictReader → List Nat × Bool
  | 0, _ => ([], false)
  | fuel + 1, l =>
    match l.Read 32768 with
    | (ReadRes.tooLarge, _) => ([], false)
    | (ReadRes.data d true, _) => (d, true)
    | (ReadRes.data d false, l') =>
      let p := copyLoopF fuel l'
      (d ++ p.1, p.2)

/-- Model of `io.Copy(dest, utils.LimitStrictReader(src, n))` in `downloadCRL`. -/
def ioCopyLimited (events : List ReadEvent) (n : Int) : List Nat × Bool :=
  copyLoopF (events.length + n.toNat + 1) ⟨events, n⟩

/-- Model of `io.Copy` straight from the response body (the `force` path of
`downloadCRL`, no size limiter): concatenates the stream's bytes up to and
including the first event that carries EOF. -/
def copyPlain : List ReadEvent → List Nat
  | [] => []
  | e :: rest => if e.eof then e.data else e.data ++ copyPlain rest

/-- Model of `io.ReadFull(r.Body, head)` in `downloadCRL`: read exactly `n` bytes.
Returns the bytes and the remaining stream, or `none` when the stream ends
(EOF) before `n` bytes arrive (`io.ErrUnexpectedEOF` / `io.EOF`). -/
def readFull : List ReadEvent → Nat → Option (List Nat × List ReadEvent)
  | evs, 0 => some ([], evs)
  | [], _ + 1 => none
  | e :: rest, n + 1 =>
    if e.data.length ≤ n + 1 then
      if e.eof then
        if e.data.length = n + 1 then some (e.data, rest) else none
      else
        match readFull rest (n + 1 - e.data.length) with
        | none => none
        | some (tail, evs) => some (e.data ++ tail, evs)
    else
      some (e.data.take (n + 1), ⟨e.data.drop (n + 1), e.eof⟩ :: rest)

/-- The error cases `downloadCRL` can report: head read failure, format
rejection, and copy failure (in this model the only copy failure is the
limiter's "input stream too large"). -/
inductive FetchError where
  | headRead
  | badFormat
  | tooLarge
deriving DecidableEq, Repr

/-- Function `downloadCRL` from the main package, given the response body's stream.
On success returns the bytes written to the temporary file writer `w`,
together with the bytes fed to the hash `h` (`none` when the hash never sees
data: on the `force` path `dest` is just `w`, not the MultiWriter).
* `force`: copy the whole body to `w`, no head read, no format check, no
  limiter, hash untouched.
* otherwise: `dest = MultiWriter(w, h)`; read the 24-byte head with
  `io.ReadFull`; check `isCRL`; copy `MultiReader(head, rest)` through
  `LimitStrictReader(·, limit)` into `dest`. -/
def downloadCRL (events : List ReadEvent) (limit : Int) (force : Bool) :
    Except FetchError (List Nat × Option (List Nat)) :=
  if force then Except.ok (copyPlain events, none)
  else
    match readFull events 24 with
    | none => Except.error FetchError.headRead
    | some (head, rest) =>
      if isCRL head then
        match ioCopyLimited (⟨head, false⟩ :: rest) limit with
        | (written, true) => Except.ok (written, some written)
        | (_, false) => Except.error FetchError.tooLarge
      else Except.error FetchError.badFormat

example : pemHeaderBytes.length = 24 := by decide
example : isCRL pemHeaderBytes = true := by decide
example : isCRL (0x30 :: 0x82 :: List.replicate 22 7) = true := by decide
example : isCRL (List.replicate 24 65) = false := by decide
example : downloadCRL [⟨[1, 2, 3], false⟩] 1 true = Except.ok ([1, 2, 3], none) := rfl
example : downloadCRL [⟨pemHeaderBytes, false⟩, ⟨[], true⟩] 24 false =
    Except.error FetchError.tooLarge := rfl
example : downloadCRL [⟨pemHeaderBytes, true⟩] 24 false =
    Except.error FetchError.tooLarge := rfl
example : downloadCRL [⟨pemHeaderBytes, true⟩] 25 false =
    Except.ok (pemHeaderBytes, some pemHeaderBytes) := rfl
example : downloadCRL [⟨[0x30, 0x82, 1], true⟩] 100 false =
    Except.error FetchError.headRead := rfl

/-- Outcome counters of `Metrics` (`crl_updater_success` / `crl_updater_error`
at this job's label, `crl_updater_success_total` / `crl_updater_error_total`),
recorded as the number of `Inc()` calls made during one run. -/
structure Metrics where
  success : Nat
  error : Nat
  successTotal : Nat
  errorTotal : Nat
deriving DecidableEq, Repr

/-- All counters at zero: no increment has happened yet this run. -/
def Metrics.zero : Metrics := ⟨0, 0, 0, 0⟩

/-- Model of `j.Metrics.SuccessTotal.Inc()` followed by
`j.Metrics.Success.With(labels).Inc()`. -/
def Metrics.recordSuccess (m : Metrics) : Metrics :=
  { m with success := m.success + 1, successTotal := m.successTotal + 1 }

/-- Model of `j.Metrics.ErrorTotal.Inc()` followed by
`j.Metrics.Error.With(labels).Inc()`. -/
def Metrics.recordError (m : Metrics) : Metrics :=
  { m with error := m.error + 1, errorTotal := m.errorTotal + 1 }

/-- The fields of `CRLJob` that `Run` consults. -/
structure JobCfg where
  forceUpdate : Bool
  sizeLimit : Int
deriving DecidableEq, Repr

/-- Oracles for the filesystem/OS operations `Run` branches on:
`renameio.TempFile`, `os.Open` on the destination, the `io.Copy` that hashes
the destination, `os.Chown`, `os.Chmod`, `CloseAtomicallyReplace`.
(`runtime.GOOS != "windows"`, i.e. POSIX, is modelled.) -/
structure RunEnv where
  tempCreateOk : Bool
  destOpenOk : Bool
  destReadOk : Bool
  chownOk : Bool
  chmodOk : Bool
  renameOk : Bool
deriving DecidableEq, Repr

/-- Which exit path `CRLJob.Run` took. -/
inductive Outcome where
  | tempFailed
  | downloadFailed
  | compareFailed
  | unchanged
  | chownFailed
  | chmodFailed
  | renameFailed
  | updated
deriving DecidableEq, Repr

/-- State after one `Run`: the exit path, the destination file's content
(`none` = absent), whether the temporary file still exists, and the metric
increments made. -/
structure RunResult where
  outcome : Outcome
  dest : Option (List Nat)
  tempExists : Bool
  metrics : Metrics
deriving DecidableEq, Repr

/-- The chown/chmod/rename tail of `Run` (lines 135-161): apply ownership and
mode to the temporary file, then `CloseAtomicallyReplace`.  A failed rename
leaves the destination as it was; success publishes the temporary file's
content (the downloaded bytes) and the temporary file is gone (renamed). -/
def replaceTail (env : RunEnv) (written : List Nat) (dest0 : Option (List Nat)) :
    RunResult :=
  if env.chownOk = false then ⟨.chownFailed, dest0, true, Metrics.zero.recordError⟩
  else if env.chmodOk = false then ⟨.chmodFailed, dest0, true, Metrics.zero.recordError⟩
  else if env.renameOk = false then ⟨.renameFailed, dest0, true, Metrics.zero.recordError⟩
  else ⟨.updated, some written, false, Metrics.zero.recordSuccess⟩

/-- The body of `CRLJob.Run` after the temporary file exists, up to the point
where the deferred `tempFile.Cleanup()` runs: download, then (unless forced)
open the destination and compare SHA-256 digests (idealised as content
equality), then hand off to `replaceTail`.  `os.Open` succeeds exactly when
the destination exists and `env.destOpenOk`; any `os.Open` failure skips the
comparison (first publish). -/
def runBody (cfg : JobCfg) (env : RunEnv) (events : List ReadEvent)
    (dest0 : Option (List Nat)) : RunResult :=
  match downloadCRL events cfg.sizeLimit cfg.forceUpdate with
  | Except.error _ => ⟨.downloadFailed, dest0, true, Metrics.zero.recordError⟩
  | Except.ok (written, _) =>
    if cfg.forceUpdate = false then
      match dest0 with
      | some existing =>
        if env.destOpenOk then
          if env.destReadOk = false then
            ⟨.compareFailed, dest0, true, Metrics.zero.recordError⟩
          else if written = existing then
            ⟨.unchanged, dest0, true, Metrics.zero.recordSuccess⟩
          else replaceTail env written dest0
        else replaceTail env written dest0
      | none => replaceTail env written dest0
    else replaceTail env written dest0

/-- The deferred `tempFile.Cleanup()`: removes the temporary file if it still
exists (a no-op after a successful `CloseAtomicallyReplace`). -/
def cleanupTemp (r : RunResult) : RunResult := { r with tempExists := false }

/-- Method `CRLJob.Run`: create the temporary file (recording an error if that
fails), defer its cleanup, and run the body. -/
def CRLJob.Run (cfg : JobCfg) (env : RunEnv) (events : List ReadEvent)
    (dest0 : Option (List Nat)) : RunResult :=
  if env.tempCreateOk = false then
    ⟨.tempFailed, dest0, false, Metrics.zero.recordError⟩
  else cleanupTemp (runBody cfg env events dest0)

/-- The fields of `CRLJob` that `Prepare` reads and writes. -/
structure CRLJob where
  url : String
  destination : String
  mode : Nat
  owner : String
  uid : Int
  group : String
  gid : Int
  forceUpdate : Bool
  schedule : String
  sizeLimit : Int
  timeoutHuman : String
  timeoutDuration : Int
deriving DecidableEq, Repr

/-- The OS facts `Prepare` consults: `user.Lookup`+`Atoi` and
`user.LookupGroup`+`Atoi` (as partial maps from name to numeric id),
`os.Getuid`/`os.Getgid`, whether `cron.ParseStandard` accepts a string, and
`time.ParseDuration` (duration in nanoseconds). -/
structure PrepareEnv where
  lookupUser : String → Option Int
  lookupGroup : String → Option Int
  procUid : Int
  procGid : Int
  cronParses : String → Bool
  parseDuration : String → Option Int

/-- Constant `DefaultTimeoutDuration = time.Minute` in nanoseconds. -/
def DefaultTimeoutDuration : Int := 60000000000

/-- Constant `DefaultSizeLimit` from the main package. -/
def DefaultSizeLimit : Int := 10485760

/-- Constant `DefaultSchedule` from the main package. -/
def DefaultSchedule : String := "@hourly"

/-- Constant `DefaultFileMode` from the main package (0644 octal). -/
def DefaultFileMode : Nat := 0o644

/-- Method `CRLJob.Prepare` (POSIX path): reject empty url/dest; resolve owner and
group names to ids, falling back to the process's own ids; default the mode,
schedule, timeout and size limit when unset or invalid.  Returns the mutated
job. -/
def CRLJob.Prepare (env : PrepareEnv) (j : CRLJob) : Except String CRLJob :=
  if j.url = "" ∨ j.destination = "" then
    Except.error "empty url and/or dest parameters"
  else
    match (if j.owner ≠ "" then env.lookupUser j.owner else some env.procUid) with
    | none => Except.error "user lookup failed"
    | some uid =>
      match (if j.group ≠ "" then env.lookupGroup j.group else some env.procGid) with
      | none => Except.error "group lookup failed"
      | some gid =>
        Except.ok { j with
          uid := uid
          gid := gid
          mode := if j.mode = 0 then DefaultFileMode else j.mode
          schedule := if env.cronParses j.schedule then j.schedule else DefaultSchedule
          timeoutDuration :=
            match env.parseDuration j.timeoutHuman with
            | some d => d
            | none => DefaultTimeoutDuration
          sizeLimit := if j.sizeLimit ≤ 0 then DefaultSizeLimit else j.sizeLimit }

/-- POSIX absolute path test (`filepath.IsAbs` on non-Windows): the path
begins with a slash. -/
def isAbsolutePath (s : String) : Bool := s.toList.head? == some '/'

/-! ## Helper lemmas about the stream model -/

theorem wfEvents_cons (e : ReadEvent) (tl : List ReadEvent) :
    wfEvents (e :: tl) = true ↔ (tl = [] ∨ (e.eof = false ∧ wfEvents tl = true)) := by
  cases tl <;> simp [wfEvents]

/-- Result `readFull evs n = some (hd, rest)` means: `hd` is exactly the first `n`
bytes of the stream, `rest` carries the remaining bytes, and well-formedness
is preserved. -/
theorem readFull_spec :
    ∀ (evs : List ReadEvent) (n : Nat) (hd : List Nat) (rest : List ReadEvent),
      readFull evs n = some (hd, rest) →
      hd.length = n ∧ allData evs = hd ++ allData rest ∧
        (wfEvents evs = true → wfEvents rest = true) := by
  intro evs
  induction evs with
  | nil =>
    intro n hd rest hr
    cases n with
    | zero =>
      simp only [readFull, Option.some.injEq, Prod.mk.injEq] at hr
      obtain ⟨rfl, rfl⟩ := hr
      simp [allData]
    | succ m => simp [readFull] at hr
  | cons e tl ih =>
    intro n hd rest hr
    cases n with
    | zero =>
      simp only [readFull, Option.some.injEq, Prod.mk.injEq] at hr
      obtain ⟨rfl, rfl⟩ := hr
      simp [allData]
    | succ m =>
      rw [readFull] at hr
      by_cases hle : e.data.length ≤ m + 1
      · rw [if_pos hle] at hr
        by_cases heof : e.eof
        · rw [if_pos heof] at hr
          by_cases hex : e.data.length = m + 1
          · rw [if_pos hex] at hr
            simp only [Option.some.injEq, Prod.mk.injEq] at hr
            obtain ⟨rfl, rfl⟩ := hr
            refine ⟨hex, rfl, ?_⟩
            intro hwf
            rcases (wfEvents_cons e tl).mp hwf with h | ⟨hef, hwtl⟩
            · subst h; rfl
            · exact hwtl
          · rw [if_neg hex] at hr
            exact absurd hr (by simp)
        · rw [if_neg heof] at hr
          rcases hrec : readFull tl (m + 1 - e.data.length) with _ | ⟨tail, evs'⟩
          · rw [hrec] at hr
            exact absurd hr (by simp)
          · rw [hrec] at hr
            simp only [Option.some.injEq, Prod.mk.injEq] at hr
            obtain ⟨rfl, rfl⟩ := hr
            obtain ⟨hlen, hdata, hwf⟩ := ih (m + 1 - e.data.length) tail evs' hrec
            refine ⟨?_, ?_, ?_⟩
            · simp [List.length_append, hlen]; omega
            · simp only [allData, hdata, List.append_assoc]
            · intro hw
              apply hwf
              rcases (wfEvents_cons e tl).mp hw with h | ⟨_, hwtl⟩
              · subst h; rfl
              · exact hwtl
      · rw [if_neg hle] at hr
        simp only [Option.some.injEq, Prod.mk.injEq] at hr
        obtain ⟨rfl, rfl⟩ := hr
        refine ⟨?_, ?_, ?_⟩
        · simp; omega
        · simp only [allData, ← List.append_assoc, List.take_append_drop]
        · intro hw
          rcases (wfEvents_cons e tl).mp hw with h | ⟨hef, hwtl⟩
          · subst h
            simp [wfEvents]
          · exact (wfEvents_cons _ _).mpr (Or.inr ⟨hef, hwtl⟩)

/-- If the stream holds fewer than `n` bytes in total, `readFull` cannot
succeed. -/
theorem readFull_none_of_short (evs : List ReadEvent) (n : Nat)
    (h : (allData evs).length < n) : readFull evs n = none := by
  rcases hr : readFull evs n with _ | ⟨hd, rest⟩
  · rfl
  · exfalso
    obtain ⟨hlen, hdata, _⟩ := readFull_spec evs n hd rest hr
    rw [hdata] at h
    simp [List.length_append] at h
    omega

/-- A pair whose second component is `true` is the pair of its first
component with `true`. -/
theorem pair_fst_true {α : Type} (p : α × Bool) (h : p.2 = true) :
    p = (p.1, true) := by
  rw [← h]

/-- A copy through the strict limiter fails whenever the stream carries more
bytes than the remaining budget (the run is never silently truncated). -/
theorem copyLoopF_over :
    ∀ (fuel : Nat) (evs : List ReadEvent) (N : Int),
      wfEvents evs = true → N < ((allData evs).length : Int) →
      (copyLoopF fuel ⟨evs, N⟩).2 = false := by
  intro fuel
  induction fuel with
  | zero => intro evs N _ _; rfl
  | succ n ih =>
    intro evs N hwf hover
    by_cases hN : N ≤ 0
    · simp [copyLoopF, LimitedStrictReader.Read, hN]
    · cases evs with
      | nil =>
        exfalso
        simp [allData] at hover
        omega
      | cons e tl =>
        by_cases hle : e.data.length ≤ min 32768 N.toNat
        · by_cases heof : e.eof = true
          · exfalso
            have htl : tl = [] := by
              rcases (wfEvents_cons e tl).mp hwf with h | ⟨hef, _⟩
              · exact h
              · rw [heof] at hef; cases hef
            subst htl
            simp [allData] at hover
            have hmin : min 32768 N.toNat ≤ N.toNat := Nat.min_le_right _ _
            omega
          · have hef : e.eof = false := by
              revert heof; cases e.eof <;> simp
            have hwtl : wfEvents tl = true := by
              rcases (wfEvents_cons e tl).mp hwf with h | ⟨_, hw⟩
              · subst h; rfl
              · exact hw
            have hover' : N - (e.data.length : Int) <
                ((allData tl).length : Int) := by
              simp [allData, List.length_append] at hover
              omega
            simp only [copyLoopF, LimitedStrictReader.Read, hN, hle, hef,
              if_neg hN, if_pos hle, if_true, if_false]
            exact ih tl (N - (e.data.length : Int)) hwtl hover'
        · have hwf' : wfEvents (⟨e.data.drop (min 32768 N.toNat), e.eof⟩ :: tl)
              = true := by
            rcases (wfEvents_cons e tl).mp hwf with h | ⟨hef, hw⟩
            · subst h; simp [wfEvents]
            · exact (wfEvents_cons _ _).mpr (Or.inr ⟨hef, hw⟩)
          have hover' : N - ((min 32768 N.toNat : Nat) : Int) <
              ((allData (⟨e.data.drop (min 32768 N.toNat), e.eof⟩ :: tl)).length
                : Int) := by
            simp only [allData, List.length_append, List.length_drop] at hover ⊢
            have hgt : min 32768 N.toNat < e.data.length := Nat.lt_of_not_le hle
            push_cast
            omega
          simp only [copyLoopF, LimitedStrictReader.Read, if_neg hN,
            if_neg hle]
          exact ih _ _ hwf' hover'

/-- A copy through the strict limiter that ends without error has written
exactly the stream's bytes. -/
theorem copyLoopF_ok :
    ∀ (fuel : Nat) (evs : List ReadEvent) (N : Int) (w : List Nat),
      wfEvents evs = true → copyLoopF fuel ⟨evs, N⟩ = (w, true) →
      w = allData evs := by
  intro fuel
  induction fuel with
  | zero =>
    intro evs N w _ h
    exact absurd h (by simp [copyLoopF])
  | succ n ih =>
    intro evs N w hwf h
    by_cases hN : N ≤ 0
    · simp [copyLoopF, LimitedStrictReader.Read, hN] at h
    · cases evs with
      | nil =>
        simp only [copyLoopF, LimitedStrictReader.Read, if_neg hN] at h
        simp only [Prod.mk.injEq] at h
        obtain ⟨rfl, _⟩ := h
        rfl
      | cons e tl =>
        by_cases hle : e.data.length ≤ min 32768 N.toNat
        · by_cases heof : e.eof = true
          · have htl : tl = [] := by
              rcases (wfEvents_cons e tl).mp hwf with hh | ⟨hef, _⟩
              · exact hh
              · rw [heof] at hef; cases hef
            subst htl
            simp only [copyLoopF, LimitedStrictReader.Read, if_neg hN,
              if_pos hle, heof] at h
            simp only [Prod.mk.injEq] at h
            obtain ⟨rfl, _⟩ := h
            simp [allData]
          · have hef : e.eof = false := by
              revert heof; cases e.eof <;> simp
            have hwtl : wfEvents tl = true := by
              rcases (wfEvents_cons e tl).mp hwf with hh | ⟨_, hw⟩
              · subst hh; rfl
              · exact hw
            simp only [copyLoopF, LimitedStrictReader.Read, if_neg hN,
              if_pos hle, hef] at h
            simp only [Prod.mk.injEq] at h
            obtain ⟨hw1, hw2⟩ := h
            have hIH := ih tl _ _ hwtl (pair_fst_true _ hw2)
            rw [← hw1, hIH]
            rfl
        · have hwf' : wfEvents (⟨e.data.drop (min 32768 N.toNat), e.eof⟩ :: tl)
              = true := by
            rcases (wfEvents_cons e tl).mp hwf with hh | ⟨hef, hw⟩
            · subst hh; simp [wfEvents]
            · exact (wfEvents_cons _ _).mpr (Or.inr ⟨hef, hw⟩)
          simp only [copyLoopF, LimitedStrictReader.Read, if_neg hN,
            if_neg hle] at h
          simp only [Prod.mk.injEq] at h
          obtain ⟨hw1, hw2⟩ := h
          have hIH := ih _ _ _ hwf' (pair_fst_true _ hw2)
          rw [← hw1, hIH]
          simp only [allData, ← List.append_assoc, List.take_append_drop]

/-! ## Helper lemmas about the run pipeline -/

theorem replaceTail_cases (env : RunEnv) (w : List Nat)
    (dest0 : Option (List Nat)) :
    replaceTail env w dest0 =
        ⟨.chownFailed, dest0, true, Metrics.zero.recordError⟩ ∨
    replaceTail env w dest0 =
        ⟨.chmodFailed, dest0, true, Metrics.zero.recordError⟩ ∨
    replaceTail env w dest0 =
        ⟨.renameFailed, dest0, true, Metrics.zero.recordError⟩ ∨
    replaceTail env w dest0 =
        ⟨.updated, some w, false, Metrics.zero.recordSuccess⟩ := by
  unfold replaceTail
  split_ifs <;> simp

/-- The facts shared by every exit path of `CRLJob.Run`: the temporary file is
gone, exactly one metric pair was recorded, success is recorded exactly on the
Unchanged/Updated paths, and any path other than Updated leaves the
destination as it was. -/
theorem run_shape (cfg : JobCfg) (env : RunEnv) (events : List ReadEvent)
    (dest0 : Option (List Nat)) :
    (CRLJob.Run cfg env events dest0).tempExists = false ∧
    ((CRLJob.Run cfg env events dest0).metrics = Metrics.zero.recordSuccess ∨
      (CRLJob.Run cfg env events dest0).metrics = Metrics.zero.recordError) ∧
    ((CRLJob.Run cfg env events dest0).metrics = Metrics.zero.recordSuccess ↔
      ((CRLJob.Run cfg env events dest0).outcome = Outcome.unchanged ∨
        (CRLJob.Run cfg env events dest0).outcome = Outcome.updated)) ∧
    ((CRLJob.Run cfg env events dest0).outcome ≠ Outcome.updated →
      (CRLJob.Run cfg env events dest0).dest = dest0) := by
  unfold CRLJob.Run
  split
  · simp [Metrics.zero, Metrics.recordSuccess, Metrics.recordError]
  · unfold cleanupTemp runBody
    split
    · simp [Metrics.zero, Metrics.recordSuccess, Metrics.recordError]
    · rename_i written snd heq
      split
      · split
        · rename_i existing
          split
          · split
            · simp [Metrics.zero, Metrics.recordSuccess, Metrics.recordError]
            · split
              · simp [Metrics.zero, Metrics.recordSuccess, Metrics.recordError]
              · rcases replaceTail_cases env written (some existing)
                  with h | h | h | h <;> rw [h] <;>
                  simp [Metrics.zero, Metrics.recordSuccess, Metrics.recordError]
          · rcases replaceTail_cases env written (some existing)
              with h | h | h | h <;> rw [h] <;>
              simp [Metrics.zero, Metrics.recordSuccess, Metrics.recordError]
        · rcases replaceTail_cases env written none
            with h | h | h | h <;> rw [h] <;>
            simp [Metrics.zero, Metrics.recordSuccess, Metrics.recordError]
      · rcases replaceTail_cases env written dest0
          with h | h | h | h <;> rw [h] <;>
          simp [Metrics.zero, Metrics.recordSuccess, Metrics.recordError]

/-- When the download fails, the run stops with the download-failed outcome
(or earlier on temp-file creation), so the destination is untouched. -/
theorem run_download_error (cfg : JobCfg) (env : RunEnv)
    (events : List ReadEvent) (dest0 : Option (List Nat)) (err : FetchError)
    (h : downloadCRL events cfg.sizeLimit cfg.forceUpdate = Except.error err) :
    ((CRLJob.Run cfg env events dest0).outcome = Outcome.tempFailed ∨
      (CRLJob.Run cfg env events dest0).outcome = Outcome.downloadFailed) ∧
    (CRLJob.Run cfg env events dest0).dest = dest0 := by
  unfold CRLJob.Run
  split
  · simp
  · unfold cleanupTemp runBody
    rw [h]
    simp

/-- Function `downloadCRL` with `force = false`, unfolded one step. -/
theorem downloadCRL_noforce (events : List ReadEvent) (limit : Int) :
    downloadCRL events limit false =
      (match readFull events 24 with
       | none => Except.error FetchError.headRead
       | some (head, rest) =>
         if isCRL head then
           match ioCopyLimited (⟨head, false⟩ :: rest) limit with
           | (written, true) => Except.ok (written, some written)
           | (_, false) => Except.error FetchError.tooLarge
         else Except.error FetchError.badFormat) := by
  unfold downloadCRL
  simp

/-- For a 24-byte head, `isCRL` accepts exactly the PEM header and the two
DER tag prefixes. -/
theorem isCRL_iff (hd : List Nat) (hlen : hd.length = 24) :
    isCRL hd = true ↔
      (hd = pemHeaderBytes ∨ hd.take 2 = [0x30, 0x82] ∨
        hd.take 2 = [0x30, 0x83]) := by
  cases hd with
  | nil => simp at hlen
  | cons a tl =>
    cases tl with
    | nil => simp at hlen
    | cons b t =>
      simp [isCRL]
      tauto

/-! ## Claims -/

/-- Claim C1: for every force=false fetch, format validation succeeds exactly
when the first 24 bytes of the response body equal the literal ASCII text
`-----BEGIN X509 CRL-----` or the first two bytes equal `0x30 0x82` or
`0x30 0x83`; for every other 24-byte prefix the fetch fails with FormatError
and the destination file remains unmodified. -/
theorem claim_c1_format_validation (events : List ReadEvent) (hd : List Nat)
    (rest : List ReadEvent) (limit : Int) (env : RunEnv)
    (dest0 : Option (List Nat))
    (hrf : readFull events 24 = some (hd, rest)) :
    (downloadCRL events limit false ≠ Except.error FetchError.badFormat ↔
      (hd = pemHeaderBytes ∨ hd.take 2 = [0x30, 0x82] ∨
        hd.take 2 = [0x30, 0x83])) ∧
    (downloadCRL events limit false = Except.error FetchError.badFormat →
      (CRLJob.Run ⟨false, limit⟩ env events dest0).dest = dest0) := by
  obtain ⟨hlen, -, -⟩ := readFull_spec events 24 hd rest hrf
  constructor
  · rw [← isCRL_iff hd hlen, downloadCRL_noforce, hrf]
    by_cases hc : isCRL hd
    · rcases hio : ioCopyLimited (⟨hd, false⟩ :: rest) limit with ⟨w, b⟩
      cases b <;> simp [hc, hio]
    · simp [hc]
  · intro hbad
    exact (run_download_error ⟨false, limit⟩ env events dest0
      FetchError.badFormat hbad).2

theorem claim_c1_format_validation_witness :
    (downloadCRL [⟨List.replicate 24 65, true⟩] 100 false ≠
        Except.error FetchError.badFormat ↔
      (List.replicate 24 65 = pemHeaderBytes ∨
        (List.replicate 24 65).take 2 = [0x30, 0x82] ∨
        (List.replicate 24 65).take 2 = [0x30, 0x83])) ∧
    (downloadCRL [⟨List.replicate 24 65, true⟩] 100 false =
        Except.error FetchError.badFormat →
      (CRLJob.Run ⟨false, 100⟩ ⟨true, true, true, true, true, true⟩
          [⟨List.replicate 24 65, true⟩] (some [1])).dest = some [1]) :=
  claim_c1_format_validation [⟨List.replicate 24 65, true⟩]
    (List.replicate 24 65) [] 100 ⟨true, true, true, true, true, true⟩
    (some [1]) (by decide)

/-- Claim C2 counterexample: a force=true fetch with a 3-byte body and size
limit 1 succeeds and delivers all 3 bytes; the strict limiter is simply not
installed on the force path, so exceeding the limit does not fail the
fetch. -/
theorem claim_c2_counterexample :
    downloadCRL [⟨[1, 2, 3], false⟩] 1 true = Except.ok ([1, 2, 3], none) ∧
    (1 : Int) < ((allData [⟨[1, 2, 3], false⟩]).length : Int) :=
  ⟨rfl, by decide⟩

/-- Claim C2 (amended to force=false runs): once the head read and format
check pass, size enforcement is continuous over the whole stream: if the
stream carries more bytes than the limit the fetch fails with the size-limit
error (never a silent truncation), and a fetch that succeeds has written the
entire payload. -/
theorem claim_c2_size_enforcement (events : List ReadEvent) (hd : List Nat)
    (rest : List ReadEvent) (limit : Int)
    (hwf : wfEvents events = true)
    (hrf : readFull events 24 = some (hd, rest))
    (hcrl : isCRL hd = true) :
    (limit < ((allData events).length : Int) →
      downloadCRL events limit false = Except.error FetchError.tooLarge) ∧
    (∀ w hw, downloadCRL events limit false = Except.ok (w, hw) →
      w = allData events ∧ hw = some w) := by
  obtain ⟨hlen, hdata, hwfr⟩ := readFull_spec events 24 hd rest hrf
  have hwfr' : wfEvents (⟨hd, false⟩ :: rest) = true :=
    (wfEvents_cons _ _).mpr (Or.inr ⟨rfl, hwfr hwf⟩)
  have hdata' : allData (⟨hd, false⟩ :: rest) = allData events := by
    simp [allData, hdata]
  constructor
  · intro hover
    rw [downloadCRL_noforce, hrf]
    rcases hio : ioCopyLimited (⟨hd, false⟩ :: rest) limit with ⟨w, b⟩
    have hb : b = false := by
      have hfail := copyLoopF_over
        (((⟨hd, false⟩ :: rest) : List ReadEvent).length + limit.toNat + 1)
        (⟨hd, false⟩ :: rest) limit hwfr' (by rw [hdata']; exact hover)
      unfold ioCopyLimited at hio
      rw [hio] at hfail
      exact hfail
    subst hb
    simp [hcrl, hio]
  · intro w hw h
    rw [downloadCRL_noforce, hrf] at h
    rcases hio : ioCopyLimited (⟨hd, false⟩ :: rest) limit with ⟨w', b⟩
    cases b
    · simp [hcrl, hio] at h
    · simp [hcrl, hio] at h
      obtain ⟨hw1, hw2⟩ := h
      have hall : w' = allData (⟨hd, false⟩ :: rest) := by
        apply copyLoopF_ok _ _ limit _ hwfr'
        unfold ioCopyLimited at hio
        exact hio
      constructor
      · rw [← hw1, hall, hdata']
      · rw [← hw2, ← hw1]

theorem claim_c2_size_enforcement_witness :
    downloadCRL [⟨pemHeaderBytes, true⟩] 10 false =
      Except.error FetchError.tooLarge :=
  (claim_c2_size_enforcement [⟨pemHeaderBytes, true⟩] pemHeaderBytes [] 10
    (by decide) (by decide) (by decide)).1 (by decide)

/-- Claim C3: when the atomic rename onto the destination fails, the
destination is byte-identical to its pre-run state and exactly one
RecordError call is made: the per-job error counter and the global error
total are each incremented exactly once (and no success is recorded). -/
theorem claim_c3_rename_failure (cfg : JobCfg) (env : RunEnv)
    (events : List ReadEvent) (dest0 : Option (List Nat))
    (h : (CRLJob.Run cfg env events dest0).outcome = Outcome.renameFailed) :
    (CRLJob.Run cfg env events dest0).dest = dest0 ∧
    (CRLJob.Run cfg env events dest0).metrics.error = 1 ∧
    (CRLJob.Run cfg env events dest0).metrics.errorTotal = 1 ∧
    (CRLJob.Run cfg env events dest0).metrics.success = 0 ∧
    (CRLJob.Run cfg env events dest0).metrics.successTotal = 0 := by
  obtain ⟨-, hm, hiff, hdest⟩ := run_shape cfg env events dest0
  have hne : (CRLJob.Run cfg env events dest0).outcome ≠ Outcome.updated := by
    rw [h]
    simp
  refine ⟨hdest hne, ?_⟩
  have hmetrics : (CRLJob.Run cfg env events dest0).metrics =
      Metrics.zero.recordError := by
    rcases hm with hs | he
    · exfalso
      rcases hiff.mp hs with h1 | h1 <;> rw [h] at h1 <;> simp at h1
    · exact he
  rw [hmetrics]
  refine ⟨rfl, rfl, rfl, rfl⟩

theorem claim_c3_rename_failure_witness :
    (CRLJob.Run ⟨true, 5⟩ ⟨true, true, true, true, true, false⟩
        [⟨[1], true⟩] (some [7, 7])).dest = some [7, 7] ∧
    (CRLJob.Run ⟨true, 5⟩ ⟨true, true, true, true, true, false⟩
        [⟨[1], true⟩] (some [7, 7])).metrics.error = 1 ∧
    (CRLJob.Run ⟨true, 5⟩ ⟨true, true, true, true, true, false⟩
        [⟨[1], true⟩] (some [7, 7])).metrics.errorTotal = 1 ∧
    (CRLJob.Run ⟨true, 5⟩ ⟨true, true, true, true, true, false⟩
        [⟨[1], true⟩] (some [7, 7])).metrics.success = 0 ∧
    (CRLJob.Run ⟨true, 5⟩ ⟨true, true, true, true, true, false⟩
        [⟨[1], true⟩] (some [7, 7])).metrics.successTotal = 0 :=
  claim_c3_rename_failure ⟨true, 5⟩ ⟨true, true, true, true, true, false⟩
    [⟨[1], true⟩] (some [7, 7]) (by decide)

/-- Claim C4: for a force=true run in which temp-file creation, the download,
ownership/mode application and the rename all succeed, the swap always occurs
and the destination afterwards holds exactly the downloaded body, regardless
of the prior destination content; on that path the format check is skipped
entirely (the download succeeds for an arbitrary body) and no digest is
computed (the hash input is `none`). -/
theorem claim_c4_force_update (events : List ReadEvent) (limit : Int)
    (env : RunEnv) (dest0 : Option (List Nat)) (htc : env.tempCreateOk = true)
    (hcw : env.chownOk = true) (hcm : env.chmodOk = true)
    (hrn : env.renameOk = true) :
    downloadCRL events limit true = Except.ok (copyPlain events, none) ∧
    (CRLJob.Run ⟨true, limit⟩ env events dest0).outcome = Outcome.updated ∧
    (CRLJob.Run ⟨true, limit⟩ env events dest0).dest =
      some (copyPlain events) := by
  refine ⟨by simp [downloadCRL], ?_, ?_⟩ <;>
  · unfold CRLJob.Run
    rw [if_neg (by simp [htc])]
    unfold cleanupTemp runBody
    simp [downloadCRL, replaceTail, hcw, hcm, hrn]

theorem claim_c4_force_update_witness :
    downloadCRL [⟨List.replicate 24 65, true⟩] 1 true =
      Except.ok (copyPlain [⟨List.replicate 24 65, true⟩], none) ∧
    (CRLJob.Run ⟨true, 1⟩ ⟨true, true, true, true, true, true⟩
        [⟨List.replicate 24 65, true⟩] (some [9])).outcome =
      Outcome.updated ∧
    (CRLJob.Run ⟨true, 1⟩ ⟨true, true, true, true, true, true⟩
        [⟨List.replicate 24 65, true⟩] (some [9])).dest =
      some (copyPlain [⟨List.replicate 24 65, true⟩]) :=
  claim_c4_force_update [⟨List.replicate 24 65, true⟩] 1
    ⟨true, true, true, true, true, true⟩ (some [9])
    (by decide) (by decide) (by decide) (by decide)

/-- Claim C5 counterexample: a force=false job whose destination already
holds exactly the payload yields Unchanged on the FIRST run, not Updated, so
two runs against an unchanged source do not always yield exactly one Updated
followed by one Unchanged. -/
theorem claim_c5_counterexample :
    (CRLJob.Run ⟨false, 100⟩ ⟨true, true, true, true, true, true⟩
        [⟨pemHeaderBytes, true⟩] (some pemHeaderBytes)).outcome =
      Outcome.unchanged ∧
    Outcome.unchanged ≠ Outcome.updated :=
  ⟨rfl, by decide⟩

/-- Claim C5 (amended): for a force=false job with all filesystem operations
succeeding, whenever the download succeeds and the destination does not
already hold the payload, running the pipeline twice against an unchanged
source yields Updated then Unchanged; the second run performs no replacement,
records a success, and after both runs the destination holds exactly the one
downloaded payload. -/
theorem claim_c5_run_twice (cfg : JobCfg) (env : RunEnv)
    (events : List ReadEvent) (dest0 : Option (List Nat)) (w : List Nat)
    (hww : Option (List Nat)) (hforce : cfg.forceUpdate = false)
    (henv : env = ⟨true, true, true, true, true, true⟩)
    (hdl : downloadCRL events cfg.sizeLimit cfg.forceUpdate =
      Except.ok (w, hww))
    (hne : dest0 ≠ some w) :
    CRLJob.Run cfg env events dest0 =
      ⟨Outcome.updated, some w, false, Metrics.zero.recordSuccess⟩ ∧
    CRLJob.Run cfg env events (CRLJob.Run cfg env events dest0).dest =
      ⟨Outcome.unchanged, some w, false, Metrics.zero.recordSuccess⟩ := by
  subst henv
  have h1 : CRLJob.Run cfg ⟨true, true, true, true, true, true⟩ events dest0 =
      ⟨Outcome.updated, some w, false, Metrics.zero.recordSuccess⟩ := by
    unfold CRLJob.Run cleanupTemp runBody
    rw [hdl]
    rcases dest0 with _ | ex
    · simp [hforce, replaceTail]
    · have hex : ¬ (w = ex) := fun hh => hne (by rw [hh])
      simp [hforce, replaceTail, hex]
  have h2 : CRLJob.Run cfg ⟨true, true, true, true, true, true⟩ events
      (some w) =
      ⟨Outcome.unchanged, some w, false, Metrics.zero.recordSuccess⟩ := by
    unfold CRLJob.Run cleanupTemp runBody
    rw [hdl]
    simp [hforce]
  refine ⟨h1, ?_⟩
  rw [h1]
  exact h2

theorem claim_c5_run_twice_witness :
    CRLJob.Run ⟨false, 100⟩ ⟨true, true, true, true, true, true⟩
        [⟨pemHeaderBytes, true⟩] none =
      ⟨Outcome.updated, some pemHeaderBytes, false,
        Metrics.zero.recordSuccess⟩ ∧
    CRLJob.Run ⟨false, 100⟩ ⟨true, true, true, true, true, true⟩
        [⟨pemHeaderBytes, true⟩]
        (CRLJob.Run ⟨false, 100⟩ ⟨true, true, true, true, true, true⟩
          [⟨pemHeaderBytes, true⟩] none).dest =
      ⟨Outcome.unchanged, some pemHeaderBytes, false,
        Metrics.zero.recordSuccess⟩ :=
  claim_c5_run_twice ⟨false, 100⟩ ⟨true, true, true, true, true, true⟩
    [⟨pemHeaderBytes, true⟩] none pemHeaderBytes (some pemHeaderBytes)
    rfl rfl rfl (by decide)

/-- Claim C6: every invocation of Run, on every exit path, makes exactly one
outcome record: success and error increments sum to one, each global total
matches its per-job counter, and success is recorded exactly on the
Unchanged and Updated paths (Unchanged counts as success). -/
theorem claim_c6_one_record (cfg : JobCfg) (env : RunEnv)
    (events : List ReadEvent) (dest0 : Option (List Nat)) :
    (CRLJob.Run cfg env events dest0).metrics.success +
        (CRLJob.Run cfg env events dest0).metrics.error = 1 ∧
    (CRLJob.Run cfg env events dest0).metrics.successTotal =
        (CRLJob.Run cfg env events dest0).metrics.success ∧
    (CRLJob.Run cfg env events dest0).metrics.errorTotal =
        (CRLJob.Run cfg env events dest0).metrics.error ∧
    ((CRLJob.Run cfg env events dest0).metrics.success = 1 ↔
      ((CRLJob.Run cfg env events dest0).outcome = Outcome.unchanged ∨
        (CRLJob.Run cfg env events dest0).outcome = Outcome.updated)) := by
  obtain ⟨-, hm, hiff, -⟩ := run_shape cfg env events dest0
  rcases hm with h | h
  · rw [h] at hiff ⊢
    simp [Metrics.zero, Metrics.recordSuccess] at hiff ⊢
    exact hiff
  · rw [h] at hiff ⊢
    simp [Metrics.zero, Metrics.recordSuccess, Metrics.recordError]
      at hiff ⊢
    exact hiff

/-- Claim C7: on every exit path of a run the temporary artifact is removed
before the run ends; no temporary file persists past a single invocation. -/
theorem claim_c7_no_temp_left (cfg : JobCfg) (env : RunEnv)
    (events : List ReadEvent) (dest0 : Option (List Nat)) :
    (CRLJob.Run cfg env events dest0).tempExists = false :=
  (run_shape cfg env events dest0).1

/-- Claim C8 counterexample: `Prepare` succeeds on a job whose destination is
the relative path `relative/crl1.crl` and leaves it relative — no resolution
to an absolute location happens. -/
theorem claim_c8_counterexample :
    CRLJob.Prepare
        ⟨fun _ => some 1000, fun _ => some 1000, 1000, 1000,
          fun _ => false, fun _ => none⟩
        ⟨"http://crl.example.com/crl1.crl", "relative/crl1.crl", 0, "", 0,
          "", 0, false, "", 0, "", 0⟩ =
      Except.ok
        ⟨"http://crl.example.com/crl1.crl", "relative/crl1.crl", 420, "",
          1000, "", 1000, false, "@hourly", 10485760, "", 60000000000⟩ ∧
    isAbsolutePath "relative/crl1.crl" = false := by
  constructor
  · rfl
  · rfl

/-- Claim C8 (amended): after a successful `Prepare` the destination is
non-empty and left exactly as configured (`Prepare` performs no resolution of
the destination to an absolute location), and the size limit is positive. -/
theorem claim_c8_prepare_destination (env : PrepareEnv) (j j' : CRLJob)
    (hp : CRLJob.Prepare env j = Except.ok j') :
    j'.destination = j.destination ∧ j'.destination ≠ "" ∧
    0 < j'.sizeLimit := by
  unfold CRLJob.Prepare at hp
  by_cases he : j.url = "" ∨ j.destination = ""
  · rw [if_pos he] at hp
    simp at hp
  · rw [if_neg he] at hp
    push_neg at he
    obtain ⟨hu, hd⟩ := he
    rcases hlu : (if j.owner ≠ "" then env.lookupUser j.owner
        else some env.procUid) with _ | uid
    · rw [hlu] at hp
      simp at hp
    · rw [hlu] at hp
      rcases hlg : (if j.group ≠ "" then env.lookupGroup j.group
          else some env.procGid) with _ | gid
      · rw [hlg] at hp
        simp at hp
      · rw [hlg] at hp
        simp only [Except.ok.injEq] at hp
        subst hp
        refine ⟨rfl, hd, ?_⟩
        by_cases hsl : j.sizeLimit ≤ 0
        · simp [hsl, DefaultSizeLimit]
        · simp [hsl]
          omega

theorem claim_c8_prepare_destination_witness :
    (⟨"http://crl.example.com/crl1.crl", "relative/crl1.crl", 420, "", 1000,
        "", 1000, false, "@hourly", 10485760, "", 60000000000⟩ :
        CRLJob).destination =
      (⟨"http://crl.example.com/crl1.crl", "relative/crl1.crl", 0, "", 0, "",
        0, false, "", 0, "", 0⟩ : CRLJob).destination ∧
    (⟨"http://crl.example.com/crl1.crl", "relative/crl1.crl", 420, "", 1000,
        "", 1000, false, "@hourly", 10485760, "", 60000000000⟩ :
        CRLJob).destination ≠ "" ∧
    (0 : Int) <
      (⟨"http://crl.example.com/crl1.crl", "relative/crl1.crl", 420, "",
        1000, "", 1000, false, "@hourly", 10485760, "",
        60000000000⟩ : CRLJob).sizeLimit :=
  claim_c8_prepare_destination
    ⟨fun _ => some 1000, fun _ => some 1000, 1000, 1000,
      fun _ => false, fun _ => none⟩
    ⟨"http://crl.example.com/crl1.crl", "relative/crl1.crl", 0, "", 0, "",
      0, false, "", 0, "", 0⟩
    ⟨"http://crl.example.com/crl1.crl", "relative/crl1.crl", 420, "", 1000,
      "", 1000, false, "@hourly", 10485760, "", 60000000000⟩
    rfl

/-- Claim C9: a `Read` on a `LimitedStrictReader` whose remaining budget is
at most zero returns the "input stream too large" error even when the
underlying stream is at a clean end-of-stream; consequently a force=false run
whose payload is exactly the configured limit (24 bytes, limit 24) with the
end-of-stream signalled by a separate read fails with the size-limit error
instead of succeeding. -/
theorem claim_c9_strict_limit :
    (∀ (l : LimitedStrictReader) (plen : Nat), l.N ≤ 0 →
      l.Read plen = (ReadRes.tooLarge, l)) ∧
    downloadCRL [⟨pemHeaderBytes, false⟩, ⟨[], true⟩] 24 false =
      Except.error FetchError.tooLarge ∧
    ((allData [⟨pemHeaderBytes, false⟩, ⟨[], true⟩]).length : Int) = 24 := by
  refine ⟨?_, rfl, by decide⟩
  intro l plen h
  unfold LimitedStrictReader.Read
  rw [if_pos h]

theorem claim_c9_strict_limit_witness :
    LimitedStrictReader.Read ⟨[], 0⟩ 4096 = (ReadRes.tooLarge, ⟨[], 0⟩) :=
  claim_c9_strict_limit.1 ⟨[], 0⟩ 4096 (by decide)

/-- Claim C10: a force=false run whose response body holds fewer than 24
bytes fails with the head-read error before any format classification (even
if the available prefix starts with a valid DER tag), so no payload shorter
than 24 bytes is ever published by a non-forced job. -/
theorem claim_c10_short_body (events : List ReadEvent) (limit : Int)
    (env : RunEnv) (dest0 : Option (List Nat))
    (hshort : (allData events).length < 24) :
    downloadCRL events limit false = Except.error FetchError.headRead ∧
    (CRLJob.Run ⟨false, limit⟩ env events dest0).dest = dest0 ∧
    (CRLJob.Run ⟨false, limit⟩ env events dest0).outcome ≠
      Outcome.updated := by
  have hrf : readFull events 24 = none :=
    readFull_none_of_short events 24 hshort
  have hdl : downloadCRL events limit false =
      Except.error FetchError.headRead := by
    rw [downloadCRL_noforce, hrf]
  refine ⟨hdl, ?_, ?_⟩
  · exact (run_download_error ⟨false, limit⟩ env events dest0
      FetchError.headRead hdl).2
  · rcases (run_download_error ⟨false, limit⟩ env events dest0
      FetchError.headRead hdl).1 with h | h <;> simp [h]

theorem claim_c10_short_body_witness :
    downloadCRL [⟨[0x30, 0x82, 1], true⟩] 100 false =
      Except.error FetchError.headRead ∧
    (CRLJob.Run ⟨false, 100⟩ ⟨true, true, true, true, true, true⟩
        [⟨[0x30, 0x82, 1], true⟩] (some [5])).dest = some [5] ∧
    (CRLJob.Run ⟨false, 100⟩ ⟨true, true, true, true, true, true⟩
        [⟨[0x30, 0x82, 1], true⟩] (some [5])).outcome ≠
      Outcome.updated :=
  claim_c10_short_body [⟨[0x30, 0x82, 1], true⟩] 100
    ⟨true, true, true, true, true, true⟩ (some [5]) (by decide)
